import Mathlib

/-!
# Verification of the Thinking-Workshop streaming client

Shallow embedding of the SSE stream-consuming client in
`src/frontend/src/lib/hooks/use-workshop.ts` (`createSessionWithStreaming`,
lines 204-357) and of the polling helper `pollSessionUntilComplete` in the
workshop API module.

Modelling conventions:
* The transport (fetch/ReadableStream/TextDecoder) is abstracted away: the
  client is given the sequence of SSE lines it would see, already classified
  as `event:` lines, `data:` lines (with the result of `JSON.parse`, `none`
  meaning the parse threw), or other/blank lines.
* JavaScript truthiness of payload fields is modelled by defaults: an absent
  or falsy string field is `""`, an absent or zero `round` is `0`, an absent
  `tool_calls` array is `none`.  Tool-call records are opaque to the client
  (`Array<Record<string, any>>`), modelled as opaque strings.
* `new Date().toISOString()` is nondeterministic; each processed line carries
  the wall-clock reading `now` the handler would observe.
* React-query side effects (`toast`, `console`, `queryClient.setQueryData`,
  `refetchSessions`, `setCurrentSessionId`) either do not touch the reducer
  state or are recorded explicitly: the one-time `getSession` fetch performed
  by the `session_complete` handler is logged in the `fetches` field.
-/

namespace Workshop

/-- Opaque tool-call record (`Array<Record<string, any>>` entry in the hook;
the client never inspects it, only stores and forwards it). -/
abbrev ToolCall := String

/-- The fields the stream handlers read from a parsed `data:` JSON payload.
A missing or falsy field is represented by the default (`""` / `0` / `none`),
matching the JavaScript truthiness tests `data.agent_id && data.round && ...`
in `use-workshop.ts`.  `round` is a 1-based round number, modelled as `Nat`
(`0` playing the role of the falsy absent/zero value). -/
structure EventData where
  session_id : String := ""
  agent_id : String := ""
  round : Nat := 0
  chunk : String := ""
  content : String := ""
  tool_calls : Option (List ToolCall) := none
  timestamp : String := ""
  error : String := ""
deriving Repr, DecidableEq

/-- The hook-local `StreamingMessage` record accumulated per `(agent_id, round)`
key (`use-workshop.ts` lines 24-32).  `tool_calls` is optional there
(`tool_calls?`); `none` models the field being absent. -/
structure StreamingMessage where
  agent_id : String
  agent_name : String
  content : String
  round_number : Nat
  timestamp : String
  isComplete : Bool
  tool_calls : Option (List ToolCall) := none
deriving Repr, DecidableEq

/-- Lookup in an insertion-ordered string-keyed map (JavaScript `Map.get`). -/
def mapGet (k : String) : List (String × StreamingMessage) → Option StreamingMessage
  | [] => none
  | (k', v) :: rest => if k' = k then some v else mapGet k rest

/-- Update/insert in an insertion-ordered string-keyed map (JavaScript
`Map.set`): replaces in place when the key is present, appends otherwise. -/
def mapSet (k : String) (v : StreamingMessage) :
    List (String × StreamingMessage) → List (String × StreamingMessage)
  | [] => [(k, v)]
  | (k', v') :: rest => if k' = k then (k', v) :: rest else (k', v') :: mapSet k v rest

/-- The key `` `${data.agent_id}-${data.round}` `` used by all three per-agent
handlers. -/
def msgKey (agentId : String) (round : Nat) : String :=
  agentId ++ "-" ++ toString round

/-- State of one streaming run of `createSessionWithStreaming`:
`streamingMessages` is the React state map (reset to empty at the start of the
run), `sessionId` is the loop-local variable set by `session_created`,
`currentEventType` is the loop-local variable threaded between SSE lines, and
`fetches` records the session ids fetched via `getSession` by the
`session_complete` handler.  (The separate React state `currentSessionId` is
not part of the reducer and is not modelled here; see `handleStreamFailure`
for the closure-captured value the error path reads.) -/
structure ClientState where
  streamingMessages : List (String × StreamingMessage) := []
  sessionId : String := ""
  currentEventType : String := ""
  fetches : List String := []
deriving Repr, DecidableEq

/-- The initial state of a streaming run (`setStreamingMessages(new Map())`,
`let sessionId = ''`, `let currentEventType = ''`). -/
def initState : ClientState := {}

/-- The dispatch on a successfully parsed `data:` payload
(`use-workshop.ts` lines 225-351): the if/else-if chain on
`currentEventType` plus the truthiness guards on the payload fields, followed
by the unconditional `currentEventType = ''` reset at line 351.  The `error`
branch (lines 345-348) only logs and toasts, leaving all reducer state
unchanged, so it is subsumed by the final else; `session_created` also calls
`setCurrentSessionId`, a React state setter outside the reducer (see
`handleStreamFailure`). -/
def handleData (now : String) (st : ClientState) (d : EventData) : ClientState :=
  let et := st.currentEventType
  let st' :=
    if et = "session_created" ∧ d.session_id ≠ "" then
      { st with sessionId := d.session_id }
    else if et = "agent_start" ∧ d.agent_id ≠ "" ∧ d.round ≠ 0 then
      let key := msgKey d.agent_id d.round
      match mapGet key st.streamingMessages with
      | some _ => st
      | none =>
          let msg : StreamingMessage :=
            { agent_id := d.agent_id, agent_name := d.agent_id, content := "",
              round_number := d.round, timestamp := now, isComplete := false }
          { st with streamingMessages := mapSet key msg st.streamingMessages }
    else if et = "agent_chunk" ∧ d.agent_id ≠ "" ∧ d.round ≠ 0 ∧ d.chunk ≠ "" then
      let key := msgKey d.agent_id d.round
      match mapGet key st.streamingMessages with
      | some existing =>
          let msg : StreamingMessage :=
            { existing with content := existing.content ++ d.chunk, timestamp := now }
          { st with streamingMessages := mapSet key msg st.streamingMessages }
      | none =>
          let msg : StreamingMessage :=
            { agent_id := d.agent_id, agent_name := d.agent_id, content := d.chunk,
              round_number := d.round, timestamp := now, isComplete := false }
          { st with streamingMessages := mapSet key msg st.streamingMessages }
    else if et = "agent_complete" ∧ d.agent_id ≠ "" ∧ d.round ≠ 0 then
      let key := msgKey d.agent_id d.round
      match mapGet key st.streamingMessages with
      | some existing =>
          let msg : StreamingMessage :=
            { existing with
                content := if d.content ≠ "" then d.content else existing.content,
                tool_calls := some (d.tool_calls.getD []),
                timestamp := if d.timestamp ≠ "" then d.timestamp else existing.timestamp,
                isComplete := true }
          { st with streamingMessages := mapSet key msg st.streamingMessages }
      | none =>
          let msg : StreamingMessage :=
            { agent_id := d.agent_id, agent_name := d.agent_id,
              content := d.content, round_number := d.round,
              timestamp := if d.timestamp ≠ "" then d.timestamp else now,
              tool_calls := some (d.tool_calls.getD []), isComplete := true }
          { st with streamingMessages := mapSet key msg st.streamingMessages }
    else if et = "session_complete" ∧ d.session_id ≠ "" then
      let st1 :=
        { st with streamingMessages :=
            st.streamingMessages.map fun p => (p.1, { p.2 with isComplete := true }) }
      if st.sessionId ≠ "" then { st1 with fetches := st1.fetches ++ [st.sessionId] } else st1
    else
      st
  { st' with currentEventType := "" }

/-- One SSE line as the consuming loop classifies it: an `event:` line (with
the trimmed type), a nonempty `data:` line (with the result of `JSON.parse`,
`none` when the parse threw and the catch at line 352-354 only logged), or any
other line (including a `data:` line whose trimmed payload is empty, skipped
by the `if (!dataStr) continue` at line 222). -/
inductive SSELine where
  | eventLine (t : String)
  | dataLine (payload : Option EventData)
  | blank
deriving Repr, DecidableEq

/-- Processing of one SSE line by the loop body (lines 213-356).  An `event:`
line stores the type; a `data:` line whose JSON parse failed leaves all state
unchanged (the error is logged and the loop continues); a parsed `data:` line
is dispatched by `handleData`. -/
def processLine (now : String) (st : ClientState) (l : SSELine) : ClientState :=
  match l with
  | .eventLine t => { st with currentEventType := t }
  | .blank => st
  | .dataLine none => st
  | .dataLine (some d) => handleData now st d

/-- The consuming loop over a sequence of lines, each carrying the wall-clock
reading at which it is processed.  The TypeScript loop (lines 204-357) has no
break other than transport end-of-stream (`if (done) break`), so it is a plain
left fold over all lines the transport delivers. -/
def runLines (st : ClientState) (ls : List (String × SSELine)) : ClientState :=
  ls.foldl (fun s p => processLine p.1 s p.2) st

/-- One well-formed SSE event as the relay frames it: an `event: t` line
immediately followed by a `data:` line with payload `d`, processed at time
`now`. -/
structure TimedEvent where
  now : String
  etype : String
  data : EventData
deriving Repr, DecidableEq

/-- Processing one framed event: the `event:` line then the parsed `data:`
line. -/
def processEvent (now : String) (st : ClientState) (t : String) (d : EventData) : ClientState :=
  processLine now (processLine now st (.eventLine t)) (.dataLine (some d))

/-- Event-level step. -/
def stepEvent (st : ClientState) (e : TimedEvent) : ClientState :=
  processEvent e.now st e.etype e.data

/-- Event-level run: the loop over a sequence of framed events. -/
def runEvents (st : ClientState) (es : List TimedEvent) : ClientState :=
  List.foldl stepEvent st es

/-- Session lifecycle status (`types/workshop.ts` line 43). -/
inductive SessionStatus where
  | created
  | in_progress
  | completed
  | failed
deriving Repr, DecidableEq

/-- Per-agent message of a persisted session (`types/workshop.ts` lines 33-40). -/
structure AgentMessage where
  agent_id : String
  agent_name : String
  content : String
  round_number : Nat
  timestamp : String
  tool_calls : List ToolCall
deriving Repr, DecidableEq

/-- Persisted workshop session (`types/workshop.ts` lines 45-57). -/
structure WorkshopSession where
  id : String
  notebook_id : String
  mode : String
  topic : String
  status : SessionStatus
  messages : List AgentMessage
  final_report : Option String
  created : String
  updated : String
  total_rounds : Nat
  agent_count : Nat
deriving Repr, DecidableEq

/-- `pollSessionUntilComplete` from the workshop API module: repeatedly
`getSession`s, invokes the update callback, returns the session as soon as its
status is `completed` or `failed`, and otherwise sleeps for the poll interval
and recurses.  The successive `getSession` results are modelled as the trace
`fetchTrace`; `none` models the poll still running when the trace is
exhausted (the source recursion has no attempt bound). -/
def pollSessionUntilComplete : List WorkshopSession → Option WorkshopSession
  | [] => none
  | s :: rest =>
      if s.status = SessionStatus.completed ∨ s.status = SessionStatus.failed then some s
      else pollSessionUntilComplete rest

/-- The catch block of `createSessionWithStreaming` (lines 359-370) for a
non-abort transport error: after surfacing the error toast, it runs
`if (currentSessionId) { startPolling(currentSessionId) }` where
`currentSessionId` is the React state value captured by the `useCallback`
closure when this invocation began — `none` for a client that had no session
selected (in particular on the first session creation), and never the id
delivered by `session_created` during this run, which is held in the local
`sessionId` variable instead.  `startPolling` resolves to
`pollSessionUntilComplete` on the captured id.  Returns the polled final
session, or `none` when no polling is started at all. -/
def handleStreamFailure (capturedSessionId : Option String)
    (fetchTrace : List WorkshopSession) : Option WorkshopSession :=
  match capturedSessionId with
  | none => none
  | some _ => pollSessionUntilComplete fetchTrace

/-- Whether a session status is terminal for the polling loop. -/
def SessionStatus.isTerminal (s : SessionStatus) : Bool :=
  s = SessionStatus.completed ∨ s = SessionStatus.failed

/-- The per-agent handlers all act on the key computed from the payload. -/
def eventKey (d : EventData) : String :=
  msgKey d.agent_id d.round

/-- The three event types whose handlers touch a single (agent, round) key. -/
def isKeyedType (t : String) : Prop :=
  t = "agent_start" ∨ t = "agent_chunk" ∨ t = "agent_complete"

/-- An event that is one of the per-agent kinds and addresses key `k`. -/
def KeyedEventFor (k : String) (e : TimedEvent) : Prop :=
  isKeyedType e.etype ∧ eventKey e.data = k

/-- An event that is an `agent_start` or `agent_chunk` addressing key `k`
(the kinds the spec allows before the completion fragment). -/
def StartOrChunkFor (k : String) (e : TimedEvent) : Prop :=
  (e.etype = "agent_start" ∨ e.etype = "agent_chunk") ∧ eventKey e.data = k

/-- A terminal stream event (`session_complete` or `error`). -/
def IsTerminalEvent (e : TimedEvent) : Prop :=
  e.etype = "session_complete" ∨ e.etype = "error"

/-- Boolean form of `KeyedEventFor`, convenient for hypotheses over event
lists. -/
def isKeyedEventFor (k : String) (e : TimedEvent) : Bool :=
  (e.etype == "agent_start" || e.etype == "agent_chunk" || e.etype == "agent_complete") &&
    (eventKey e.data == k)

/-- Boolean form of `StartOrChunkFor`. -/
def isStartOrChunkFor (k : String) (e : TimedEvent) : Bool :=
  (e.etype == "agent_start" || e.etype == "agent_chunk") && (eventKey e.data == k)

/-- Boolean form of `IsTerminalEvent`. -/
def isTerminalEvent (e : TimedEvent) : Bool :=
  e.etype == "session_complete" || e.etype == "error"

/-- The action of one per-agent event on the record stored at its own key,
read off from the three keyed branches of `handleData`: the projection of the
handler onto the addressed key. -/
def recordStep (now t : String) (d : EventData) (m : Option StreamingMessage) :
    Option StreamingMessage :=
  if t = "agent_start" ∧ d.agent_id ≠ "" ∧ d.round ≠ 0 then
    match m with
    | some existing => some existing
    | none =>
        some { agent_id := d.agent_id, agent_name := d.agent_id, content := "",
               round_number := d.round, timestamp := now, isComplete := false }
  else if t = "agent_chunk" ∧ d.agent_id ≠ "" ∧ d.round ≠ 0 ∧ d.chunk ≠ "" then
    match m with
    | some existing =>
        some { existing with content := existing.content ++ d.chunk, timestamp := now }
    | none =>
        some { agent_id := d.agent_id, agent_name := d.agent_id, content := d.chunk,
               round_number := d.round, timestamp := now, isComplete := false }
  else if t = "agent_complete" ∧ d.agent_id ≠ "" ∧ d.round ≠ 0 then
    match m with
    | some existing =>
        some { existing with
                 content := if d.content ≠ "" then d.content else existing.content,
                 tool_calls := some (d.tool_calls.getD []),
                 timestamp := if d.timestamp ≠ "" then d.timestamp else existing.timestamp,
                 isComplete := true }
    | none =>
        some { agent_id := d.agent_id, agent_name := d.agent_id,
               content := d.content, round_number := d.round,
               timestamp := if d.timestamp ≠ "" then d.timestamp else now,
               tool_calls := some (d.tool_calls.getD []), isComplete := true }
  else m

/-- Write-back of an optional per-key result: store it when present, leave the
map alone when absent. -/
def applyAt (k : String) (r : Option StreamingMessage)
    (L : List (String × StreamingMessage)) : List (String × StreamingMessage) :=
  match r with
  | some v => mapSet k v L
  | none => L

/-- An `agent_start` event as the relay frames it. -/
def startEvent (now a : String) (r : Nat) : TimedEvent :=
  { now := now, etype := "agent_start", data := { agent_id := a, round := r } }

/-- An `agent_chunk` event carrying the text delta `c`. -/
def chunkEvent (now a : String) (r : Nat) (c : String) : TimedEvent :=
  { now := now, etype := "agent_chunk", data := { agent_id := a, round := r, chunk := c } }

/-- An `agent_complete` event carrying the full content, tool calls and
timestamp. -/
def completeEvent (now a : String) (r : Nat) (c : String)
    (tc : Option (List ToolCall)) (ts : String) : TimedEvent :=
  { now := now, etype := "agent_complete",
    data := { agent_id := a, round := r, content := c, tool_calls := tc, timestamp := ts } }

/-- A `session_created` event. -/
def createdEvent (now sid : String) : TimedEvent :=
  { now := now, etype := "session_created", data := { session_id := sid } }

/-- A `session_complete` event. -/
def sessionCompleteEvent (now sid : String) : TimedEvent :=
  { now := now, etype := "session_complete", data := { session_id := sid } }

/-- An `error` event. -/
def errorEvent (now msg : String) : TimedEvent :=
  { now := now, etype := "error", data := { error := msg } }

/-- A concrete persisted session in terminal `completed` status, used in
concrete scenarios. -/
def sampleCompletedSession : WorkshopSession :=
  { id := "s1", notebook_id := "n1", mode := "dialectical_mode", topic := "T",
    status := SessionStatus.completed, messages := [], final_report := some "report",
    created := "c0", updated := "c1", total_rounds := 1, agent_count := 2 }

/-- A concrete persisted session still `in_progress`, used in concrete
scenarios. -/
def sampleRunningSession : WorkshopSession :=
  { id := "s1", notebook_id := "n1", mode := "dialectical_mode", topic := "T",
    status := SessionStatus.in_progress, messages := [], final_report := none,
    created := "c0", updated := "c1", total_rounds := 1, agent_count := 2 }

/-- `l` is an interleaving of `l1` and `l2` preserving each list's relative
order. -/
inductive Interleave : List TimedEvent → List TimedEvent → List TimedEvent → Prop
  | nil : Interleave [] [] []
  | cons_left {l1 l2 l : List TimedEvent} (a : TimedEvent) :
      Interleave l1 l2 l → Interleave (a :: l1) l2 (a :: l)
  | cons_right {l1 l2 l : List TimedEvent} (b : TimedEvent) :
      Interleave l1 l2 l → Interleave l1 (b :: l2) (b :: l)

section Lemmas

/-- `Map.get` after `Map.set`. -/
theorem mapGet_mapSet (k k' : String) (v : StreamingMessage)
    (L : List (String × StreamingMessage)) :
    mapGet k (mapSet k' v L) = if k' = k then some v else mapGet k L := by
  induction L with
  | nil => by_cases h : k' = k <;> simp [mapGet, mapSet, h]
  | cons p rest ih =>
      obtain ⟨k0, v0⟩ := p
      by_cases h0 : k0 = k'
      · subst h0
        by_cases h : k0 = k <;> simp [mapGet, mapSet, h, ih]
      · by_cases h : k0 = k
        · subst h
          have h1 : k' ≠ k0 := fun h' => h0 h'.symm
          simp [mapGet, mapSet, h0, h1]
        · simp [mapGet, mapSet, h0, h, ih]

/-- Marking everything complete commutes with lookup. -/
theorem mapGet_markAll (k : String) (L : List (String × StreamingMessage)) :
    mapGet k (L.map fun p => (p.1, { p.2 with isComplete := true })) =
      (mapGet k L).map fun m => { m with isComplete := true } := by
  induction L with
  | nil => simp [mapGet]
  | cons p rest ih =>
      obtain ⟨k0, v0⟩ := p
      by_cases h : k0 = k <;> simp [mapGet, h, ih]

/-- Re-writing the value already stored at a key leaves the map unchanged. -/
theorem mapSet_self (k : String) (v : StreamingMessage)
    (L : List (String × StreamingMessage)) (h : mapGet k L = some v) :
    mapSet k v L = L := by
  induction L with
  | nil => simp [mapGet] at h
  | cons p rest ih =>
      obtain ⟨k0, v0⟩ := p
      by_cases h0 : k0 = k
      · subst h0
        simp [mapGet] at h
        simp [mapSet, h]
      · simp [mapGet, h0] at h
        simp [mapSet, h0, ih h]

theorem applyAt_some (k : String) (v : StreamingMessage)
    (L : List (String × StreamingMessage)) : applyAt k (some v) L = mapSet k v L := rfl

theorem applyAt_none (k : String) (L : List (String × StreamingMessage)) :
    applyAt k none L = L := rfl

/-- Writing back exactly what was read is a no-op. -/
theorem applyAt_lookup (k : String) (L : List (String × StreamingMessage)) :
    applyAt k (mapGet k L) L = L := by
  cases hg : mapGet k L with
  | none => rfl
  | some v => exact mapSet_self _ _ _ hg

/-- Master simulation lemma: a per-agent event acts on the reducer state by
applying `recordStep` at its own key, resetting `currentEventType`, and
touching nothing else. -/
theorem processEvent_keyed (now t : String) (d : EventData) (st : ClientState)
    (ht : isKeyedType t) :
    processEvent now st t d =
      { st with
          currentEventType := "",
          streamingMessages :=
            applyAt (eventKey d)
              (recordStep now t d (mapGet (eventKey d) st.streamingMessages))
              st.streamingMessages } := by
  rcases ht with h | h | h <;> subst h <;>
    cases hm : mapGet (msgKey d.agent_id d.round) st.streamingMessages <;>
    by_cases ha : d.agent_id = "" <;> by_cases hr : d.round = 0 <;>
    by_cases hc : d.chunk = "" <;>
    simp [processEvent, processLine, handleData, recordStep, eventKey, hm, ha, hr, hc,
      applyAt_some, applyAt_none, applyAt_lookup, mapSet_self]

/-- `recordStep` never discards a stored record. -/
theorem recordStep_isSome (now t : String) (d : EventData) (e : StreamingMessage) :
    ∃ v, recordStep now t d (some e) = some v := by
  unfold recordStep
  split
  · exact ⟨e, rfl⟩
  · split
    · exact ⟨_, rfl⟩
    · split
      · exact ⟨_, rfl⟩
      · exact ⟨e, rfl⟩

/-- Projection of one per-agent event onto an arbitrary key: the event rewrites
its own key by `recordStep` and leaves every other key untouched. -/
theorem mapGet_stepEvent_keyed (st : ClientState) (e : TimedEvent) (k : String)
    (ht : isKeyedType e.etype) :
    mapGet k (stepEvent st e).streamingMessages =
      if eventKey e.data = k then
        recordStep e.now e.etype e.data (mapGet k st.streamingMessages)
      else mapGet k st.streamingMessages := by
  rw [stepEvent, processEvent_keyed _ _ _ _ ht]
  by_cases hk : eventKey e.data = k
  · subst hk
    cases hmg : mapGet (eventKey e.data) st.streamingMessages with
    | none =>
        cases hm : recordStep e.now e.etype e.data none with
        | none => simp [hmg, hm, applyAt_none]
        | some v => simp [hmg, hm, applyAt_some, mapGet_mapSet]
    | some w =>
        obtain ⟨v, hv⟩ := recordStep_isSome e.now e.etype e.data w
        simp [hmg, hv, applyAt_some, mapGet_mapSet]
  · cases hm : recordStep e.now e.etype e.data
        (mapGet (eventKey e.data) st.streamingMessages) with
    | none => simp [hm, hk, applyAt_none]
    | some v => simp [hm, hk, applyAt_some, mapGet_mapSet]

/-- `mapGet_stepEvent_keyed` restated at the `processEvent` level. -/
theorem mapGet_processEvent_keyed (now t : String) (d : EventData) (st : ClientState)
    (ht : isKeyedType t) (k : String) :
    mapGet k (processEvent now st t d).streamingMessages =
      if eventKey d = k then recordStep now t d (mapGet k st.streamingMessages)
      else mapGet k st.streamingMessages :=
  mapGet_stepEvent_keyed st ⟨now, t, d⟩ k ht

/-- A per-agent event leaves `sessionId` and `fetches` unchanged. -/
theorem stepEvent_keyed_frame (st : ClientState) (e : TimedEvent)
    (ht : isKeyedType e.etype) :
    (stepEvent st e).sessionId = st.sessionId ∧ (stepEvent st e).fetches = st.fetches := by
  rw [stepEvent, processEvent_keyed _ _ _ _ ht]
  exact ⟨rfl, rfl⟩

/-- A run of per-agent events, projected onto one key, is a fold of the
per-record actions of the events addressing that key. -/
theorem mapGet_runEvents_keyed (k : String) (es : List TimedEvent)
    (h : ∀ e ∈ es, isKeyedType e.etype) (st : ClientState) :
    mapGet k (runEvents st es).streamingMessages =
      es.foldl
        (fun m e => if eventKey e.data = k then recordStep e.now e.etype e.data m else m)
        (mapGet k st.streamingMessages) := by
  induction es generalizing st with
  | nil => rfl
  | cons e rest ih =>
      have h1 : isKeyedType e.etype := h e (List.mem_cons_self e rest)
      have h2 : ∀ x ∈ rest, isKeyedType x.etype := fun x hx => h x (List.mem_cons_of_mem e hx)
      show mapGet k (runEvents (stepEvent st e) rest).streamingMessages = _
      rw [ih h2, mapGet_stepEvent_keyed st e k h1]
      rfl

/-- Interleaving is symmetric. -/
theorem Interleave.symm {A B L : List TimedEvent} (h : Interleave A B L) :
    Interleave B A L := by
  induction h with
  | nil => exact Interleave.nil
  | cons_left a _ ih => exact Interleave.cons_right a ih
  | cons_right b _ ih => exact Interleave.cons_left b ih

/-- Folding the key-`k1` projection over an interleaving of events for `k1`
with events for a different key `k2` is the fold over the `k1` events alone. -/
theorem foldl_proj_interleave (k1 k2 : String) (hne : k1 ≠ k2)
    {A B L : List TimedEvent} (hI : Interleave A B L)
    (hA : ∀ e ∈ A, KeyedEventFor k1 e) (hB : ∀ e ∈ B, KeyedEventFor k2 e)
    (m : Option StreamingMessage) :
    L.foldl
        (fun m e => if eventKey e.data = k1 then recordStep e.now e.etype e.data m else m)
        m =
      A.foldl
        (fun m e => if eventKey e.data = k1 then recordStep e.now e.etype e.data m else m)
        m := by
  induction hI generalizing m with
  | nil => rfl
  | cons_left a hI' ih =>
      have h2 : ∀ x ∈ _, KeyedEventFor k1 x := fun x hx => hA x (List.mem_cons_of_mem a hx)
      simp only [List.foldl_cons]
      exact ih h2 hB _
  | cons_right b hI' ih =>
      have hb : KeyedEventFor k2 b := hB b (List.mem_cons_self b _)
      have hbk : eventKey b.data ≠ k1 := fun h' => hne (h'.symm.trans hb.2)
      have h2 : ∀ x ∈ _, KeyedEventFor k2 x := fun x hx => hB x (List.mem_cons_of_mem b hx)
      simp only [List.foldl_cons, if_neg hbk]
      exact ih hA h2 _

/-- Runs over concatenated event lists compose. -/
theorem runEvents_append (st : ClientState) (l1 l2 : List TimedEvent) :
    runEvents st (l1 ++ l2) = runEvents (runEvents st l1) l2 := by
  simp [runEvents, List.foldl_append]

/-- Runs over concatenated line lists compose. -/
theorem runLines_append (st : ClientState) (l1 l2 : List (String × SSELine)) :
    runLines st (l1 ++ l2) = runLines (runLines st l1) l2 := by
  simp [runLines, List.foldl_append]

/-- Every element of an interleaving comes from one of the two strands. -/
theorem Interleave.mem_or {A B L : List TimedEvent} (h : Interleave A B L)
    {e : TimedEvent} (he : e ∈ L) : e ∈ A ∨ e ∈ B := by
  induction h with
  | nil => cases he
  | cons_left a h' ih =>
      rcases List.mem_cons.mp he with h1 | h1
      · exact Or.inl (h1 ▸ List.mem_cons_self _ _)
      · rcases ih h1 with h2 | h2
        · exact Or.inl (List.mem_cons_of_mem _ h2)
        · exact Or.inr h2
  | cons_right b h' ih =>
      rcases List.mem_cons.mp he with h1 | h1
      · exact Or.inr (h1 ▸ List.mem_cons_self _ _)
      · rcases ih h1 with h2 | h2
        · exact Or.inl h2
        · exact Or.inr (List.mem_cons_of_mem _ h2)

/-- `recordStep` keeps a present record present and never clears its
completion flag. -/
theorem recordStep_preserves (now t : String) (d : EventData) (m : StreamingMessage) :
    ∃ m', recordStep now t d (some m) = some m' ∧
      (m.isComplete = true → m'.isComplete = true) := by
  unfold recordStep
  split
  · exact ⟨m, rfl, fun h => h⟩
  · split
    · exact ⟨_, rfl, fun h => h⟩
    · split
      · exact ⟨_, rfl, fun _ => rfl⟩
      · exact ⟨m, rfl, fun h => h⟩

/-- `handleData` keeps every present record present and never clears a
completion flag, whatever the event type. -/
theorem handleData_preserves (now : String) (st : ClientState) (d : EventData)
    (k : String) (m : StreamingMessage)
    (hm : mapGet k st.streamingMessages = some m) :
    ∃ m', mapGet k (handleData now st d).streamingMessages = some m' ∧
      (m.isComplete = true → m'.isComplete = true) := by
  by_cases h1 : st.currentEventType = "session_created" ∧ d.session_id ≠ ""
  · exact ⟨m, by simp [handleData, h1, hm], fun h => h⟩
  by_cases h2 : st.currentEventType = "agent_start" ∧ d.agent_id ≠ "" ∧ d.round ≠ 0
  · cases hkey : mapGet (msgKey d.agent_id d.round) st.streamingMessages with
    | some e => exact ⟨m, by simp [handleData, h1, h2, hkey, hm], fun h => h⟩
    | none =>
        by_cases hk : msgKey d.agent_id d.round = k
        · rw [hk, hm] at hkey; cases hkey
        · exact ⟨m, by simp [handleData, h1, h2, hkey, mapGet_mapSet, hk, hm], fun h => h⟩
  by_cases h3 : st.currentEventType = "agent_chunk" ∧ d.agent_id ≠ "" ∧ d.round ≠ 0 ∧
      d.chunk ≠ ""
  · cases hkey : mapGet (msgKey d.agent_id d.round) st.streamingMessages with
    | some e =>
        by_cases hk : msgKey d.agent_id d.round = k
        · rw [hk] at hkey
          have he : e = m := Option.some.inj (hkey.symm.trans hm)
          refine ⟨{ e with content := e.content ++ d.chunk, timestamp := now }, ?_, ?_⟩
          · simp [handleData, h1, h2, h3, hk, hkey, mapGet_mapSet]
          · intro h
            simpa [he] using h
        · exact ⟨m, by simp [handleData, h1, h2, h3, hkey, mapGet_mapSet, hk, hm], fun h => h⟩
    | none =>
        by_cases hk : msgKey d.agent_id d.round = k
        · rw [hk, hm] at hkey; cases hkey
        · exact ⟨m, by simp [handleData, h1, h2, h3, hkey, mapGet_mapSet, hk, hm], fun h => h⟩
  by_cases h4 : st.currentEventType = "agent_complete" ∧ d.agent_id ≠ "" ∧ d.round ≠ 0
  · cases hkey : mapGet (msgKey d.agent_id d.round) st.streamingMessages with
    | some e =>
        by_cases hk : msgKey d.agent_id d.round = k
        · rw [hk] at hkey
          refine ⟨{ e with
              content := if d.content ≠ "" then d.content else e.content,
              tool_calls := some (d.tool_calls.getD []),
              timestamp := if d.timestamp ≠ "" then d.timestamp else e.timestamp,
              isComplete := true }, ?_, fun _ => rfl⟩
          simp [handleData, h1, h2, h3, h4, hk, hkey, mapGet_mapSet]
        · exact ⟨m, by simp [handleData, h1, h2, h3, h4, hkey, mapGet_mapSet, hk, hm],
            fun h => h⟩
    | none =>
        by_cases hk : msgKey d.agent_id d.round = k
        · rw [hk, hm] at hkey; cases hkey
        · exact ⟨m, by simp [handleData, h1, h2, h3, h4, hkey, mapGet_mapSet, hk, hm],
            fun h => h⟩
  by_cases h5 : st.currentEventType = "session_complete" ∧ d.session_id ≠ ""
  · refine ⟨{ m with isComplete := true }, ?_, fun _ => rfl⟩
    by_cases hs : st.sessionId ≠ "" <;>
      simp [handleData, h1, h2, h3, h4, h5, hs, mapGet_markAll, hm]
  · exact ⟨m, by simp [handleData, h1, h2, h3, h4, h5, hm], fun h => h⟩

/-- One processed SSE line keeps every present record present and never clears
a completion flag. -/
theorem processLine_preserves (now : String) (st : ClientState) (l : SSELine)
    (k : String) (m : StreamingMessage)
    (hm : mapGet k st.streamingMessages = some m) :
    ∃ m', mapGet k (processLine now st l).streamingMessages = some m' ∧
      (m.isComplete = true → m'.isComplete = true) := by
  cases l with
  | eventLine t => exact ⟨m, hm, fun h => h⟩
  | blank => exact ⟨m, hm, fun h => h⟩
  | dataLine p =>
      cases p with
      | none => exact ⟨m, hm, fun h => h⟩
      | some d => exact handleData_preserves now st d k m hm

/-- Bridge from the boolean to the propositional keyed-event predicate. -/
theorem isKeyedEventFor_eq_true (k : String) (e : TimedEvent)
    (h : isKeyedEventFor k e = true) : KeyedEventFor k e := by
  simp only [isKeyedEventFor, Bool.and_eq_true, Bool.or_eq_true, beq_iff_eq] at h
  exact ⟨by tauto, h.2⟩

end Lemmas

section Claims

/-- Claim C1, as frozen, is false on the code: when the `agent_complete`
payload's `content` field is the empty string (falsy in JavaScript), the
handler's `content: data.content || existing.content` keeps the accumulated
chunk content instead of overriding it.  Concretely, after
`agent_start{A,1}`, `agent_chunk{A,1,"Hello"}` and `agent_complete{A,1,""}`,
the final content for key A-1 is "Hello", not the payload's "". -/
theorem C1_counterexample :
    ((mapGet (msgKey "A" 1)
        (runEvents initState
          [startEvent "t1" "A" 1, chunkEvent "t2" "A" 1 "Hello",
           completeEvent "t3" "A" 1 "" none ""]).streamingMessages).map
      (fun m => m.content) = some "Hello") ∧ ("Hello" : String) ≠ "" := by
  exact ⟨by decide, by decide⟩

/-- Claim C1 (amended): for every sequence of `agent_start`/`agent_chunk`
events for one (agent_id, round) key followed by exactly one `agent_complete`
event for that key whose payload content field is non-empty, the final record
for that key has content equal to the payload's content, no matter how many
chunks preceded it (an empty payload content instead leaves the accumulated
chunk content in place). -/
theorem C1_content_overridden (a : String) (r : Nat) (evs : List TimedEvent)
    (now c ts : String) (tc : Option (List ToolCall))
    (hevs : evs.all (isStartOrChunkFor (msgKey a r)) = true)
    (ha : a ≠ "") (hr : r ≠ 0) (hc : c ≠ "") :
    (mapGet (msgKey a r)
        (runEvents initState
          (evs ++ [completeEvent now a r c tc ts])).streamingMessages).map
      (fun m => m.content) = some c := by
  rw [runEvents_append]
  show (mapGet (msgKey a r)
      (stepEvent (runEvents initState evs) (completeEvent now a r c tc ts)).streamingMessages).map
      (fun m => m.content) = some c
  rw [mapGet_stepEvent_keyed _ _ _ (Or.inr (Or.inr rfl))]
  rw [show eventKey (completeEvent now a r c tc ts).data = msgKey a r from rfl, if_pos rfl]
  cases hm : mapGet (msgKey a r) (runEvents initState evs).streamingMessages with
  | none => simp [completeEvent, recordStep, ha, hr, hc]
  | some e => simp [completeEvent, recordStep, ha, hr, hc]

/-- Concrete instance of the amended C1: two chunks accumulate "Hi", the
completion payload carries "Done", and the final content is "Done". -/
theorem C1_content_overridden_witness :
    ([startEvent "t1" "A" 1, chunkEvent "t2" "A" 1 "Hi"].all
        (isStartOrChunkFor (msgKey "A" 1)) = true) ∧
    ("A" : String) ≠ "" ∧ (1 : Nat) ≠ 0 ∧ ("Done" : String) ≠ "" ∧
    (mapGet (msgKey "A" 1)
        (runEvents initState
          ([startEvent "t1" "A" 1, chunkEvent "t2" "A" 1 "Hi"] ++
            [completeEvent "t3" "A" 1 "Done" none ""])).streamingMessages).map
      (fun m => m.content) = some "Done" :=
  ⟨by decide, by decide, by decide, by decide,
    C1_content_overridden "A" 1 [startEvent "t1" "A" 1, chunkEvent "t2" "A" 1 "Hi"]
      "t3" "Done" "" none (by decide) (by decide) (by decide) (by decide)⟩

/-- Claim C2, as frozen, is false on the code: the `agent_chunk` handler never
checks `isComplete`, so a chunk processed after the completion fragment still
appends its delta.  Concretely, after `agent_complete{A,1,"Done"}` the record
holds "Done", and a subsequent `agent_chunk{A,1,"X"}` changes its content to
"DoneX" — the completed record is not immutable. -/
theorem C2_counterexample :
    ((mapGet (msgKey "A" 1)
        (runEvents initState
          [completeEvent "t1" "A" 1 "Done" none ""]).streamingMessages).map
      (fun m => m.content) = some "Done") ∧
    ((mapGet (msgKey "A" 1)
        (runEvents initState
          [completeEvent "t1" "A" 1 "Done" none "",
           chunkEvent "t2" "A" 1 "X"]).streamingMessages).map
      (fun m => m.content) = some "DoneX") ∧
    ("DoneX" : String) ≠ "Done" := by
  exact ⟨by decide, by decide, by decide⟩

/-- Claim C2 (amended): once a completion fragment for a key has been
processed, a subsequent `agent_start` for that key leaves the reducer map
entirely unchanged; the record is however not immutable: a subsequent
`agent_chunk` still appends its delta to the content, though it preserves the
completion flag, the tool calls and every other field (and a subsequent
`agent_complete` re-applies its payload, see the idempotence claim). -/
theorem C2_after_complete (st : ClientState) (a now ch : String) (r : Nat)
    (m : StreamingMessage)
    (hm : mapGet (msgKey a r) st.streamingMessages = some m)
    (hdone : m.isComplete = true) (ha : a ≠ "") (hr : r ≠ 0) (hch : ch ≠ "") :
    (processEvent now st "agent_start"
        { agent_id := a, round := r }).streamingMessages = st.streamingMessages ∧
    mapGet (msgKey a r)
        (processEvent now st "agent_chunk"
          { agent_id := a, round := r, chunk := ch }).streamingMessages =
      some { m with content := m.content ++ ch, timestamp := now } := by
  constructor
  · rw [processEvent_keyed _ _ _ _ (Or.inl rfl)]
    rw [show eventKey ({ agent_id := a, round := r } : EventData) = msgKey a r from rfl, hm]
    simp [recordStep, ha, hr, applyAt_some, mapSet_self _ _ _ hm]
  · rw [mapGet_processEvent_keyed _ _ _ _ (Or.inr (Or.inl rfl)),
      show eventKey ({ agent_id := a, round := r, chunk := ch } : EventData) = msgKey a r
        from rfl,
      if_pos rfl, hm]
    simp [recordStep, ha, hr, hch]

/-- Concrete instance of the amended C2: after `agent_complete{A,1,"Done"}`,
an `agent_start{A,1}` is a no-op and an `agent_chunk{A,1,"X"}` appends while
keeping the completion flag. -/
theorem C2_after_complete_witness :
    (mapGet (msgKey "A" 1)
        (runEvents initState
          [completeEvent "t1" "A" 1 "Done" none ""]).streamingMessages =
      some { agent_id := "A", agent_name := "A", content := "Done", round_number := 1,
             timestamp := "t1", isComplete := true, tool_calls := some [] }) ∧
    ("A" : String) ≠ "" ∧ (1 : Nat) ≠ 0 ∧ ("X" : String) ≠ "" ∧
    ((processEvent "t2" (runEvents initState [completeEvent "t1" "A" 1 "Done" none ""])
        "agent_start" { agent_id := "A", round := 1 }).streamingMessages =
      (runEvents initState [completeEvent "t1" "A" 1 "Done" none ""]).streamingMessages) ∧
    (mapGet (msgKey "A" 1)
        (processEvent "t2" (runEvents initState [completeEvent "t1" "A" 1 "Done" none ""])
          "agent_chunk" { agent_id := "A", round := 1, chunk := "X" }).streamingMessages =
      some { agent_id := "A", agent_name := "A", content := "Done" ++ "X", round_number := 1,
             timestamp := "t2", isComplete := true, tool_calls := some [] }) :=
  ⟨by decide, by decide, by decide, by decide,
    (C2_after_complete _ "A" "t2" "X" 1
      { agent_id := "A", agent_name := "A", content := "Done", round_number := 1,
        timestamp := "t1", isComplete := true, tool_calls := some [] }
      (by decide) (by decide) (by decide) (by decide) (by decide)).1,
    (C2_after_complete _ "A" "t2" "X" 1
      { agent_id := "A", agent_name := "A", content := "Done", round_number := 1,
        timestamp := "t1", isComplete := true, tool_calls := some [] }
      (by decide) (by decide) (by decide) (by decide) (by decide)).2⟩

/-- Claim C3, as frozen, is false on the code: the consuming loop has no break
on terminal events — it only stops when the transport reports end-of-stream.
Concretely, an `agent_start{A,1}` appearing after `session_complete` is still
processed and changes the reducer map. -/
theorem C3_counterexample :
    (runEvents initState
        [createdEvent "t0" "s1", sessionCompleteEvent "t1" "s1",
         startEvent "t2" "A" 1]).streamingMessages ≠
      (runEvents initState
        [createdEvent "t0" "s1", sessionCompleteEvent "t1" "s1"]).streamingMessages := by
  decide

/-- Claim C3 (amended): the client does not stop at a `session_complete` or
`error` event; any events appearing later in the stream are processed exactly
as the loop prescribes, and the loop ends only at transport end-of-stream.
The "no further events" guarantee therefore rests on the relay closing the
stream after the terminal event, not on the client. -/
theorem C3_no_client_stop (st : ClientState) (pre post : List TimedEvent)
    (term : TimedEvent) (hterm : isTerminalEvent term = true) :
    runEvents st (pre ++ term :: post) =
      runEvents (stepEvent (runEvents st pre) term) post := by
  rw [runEvents_append]
  rfl

/-- Concrete instance of the amended C3: the events after `session_complete`
continue to be folded into the state. -/
theorem C3_no_client_stop_witness :
    isTerminalEvent (sessionCompleteEvent "t1" "s1") = true ∧
    runEvents initState
        ([createdEvent "t0" "s1"] ++ sessionCompleteEvent "t1" "s1" ::
          [startEvent "t2" "A" 1]) =
      runEvents
        (stepEvent (runEvents initState [createdEvent "t0" "s1"])
          (sessionCompleteEvent "t1" "s1"))
        [startEvent "t2" "A" 1] :=
  ⟨by decide,
    C3_no_client_stop initState [createdEvent "t0" "s1"] [startEvent "t2" "A" 1]
      (sessionCompleteEvent "t1" "s1") (by decide)⟩

/-- Claim C4, as frozen, is false on the code: the catch block runs
`if (currentSessionId) startPolling(currentSessionId)` where
`currentSessionId` is the React state captured by the `useCallback` closure
when the invocation began — not the id delivered by `session_created` during
this run (that id lives in the local `sessionId` variable, which the catch
block never reads).  On a client with no previously selected session the
captured value is null, so a transport failure starts no polling at all, even
though a terminal session exists and would be observable by `getSession`. -/
theorem C4_counterexample :
    handleStreamFailure none [sampleCompletedSession] = none ∧
    sampleCompletedSession.status = SessionStatus.completed := ⟨rfl, rfl⟩

/-- Claim C4 (amended): on a non-abort transport failure the client surfaces
the error and falls back to polling only when a session id was already
selected when the streaming call began (the closure-captured
`currentSessionId`), and it polls that captured id.  When polling does run,
`pollSessionUntilComplete` repeatedly fetches the session at the fixed
interval until a fetch reports status `completed` or `failed`, and returns
that first terminal session state. -/
theorem C4_poll_fallback (sid : String) (pre : List WorkshopSession)
    (s : WorkshopSession) (rest : List WorkshopSession)
    (hpre : pre.all (fun p => !p.status.isTerminal) = true)
    (hs : s.status.isTerminal = true) :
    handleStreamFailure (some sid) (pre ++ s :: rest) = some s := by
  show pollSessionUntilComplete (pre ++ s :: rest) = some s
  have hs' : s.status = SessionStatus.completed ∨ s.status = SessionStatus.failed := by
    simpa [SessionStatus.isTerminal] using hs
  induction pre with
  | nil => simp [pollSessionUntilComplete, hs']
  | cons p ps ih =>
      simp only [List.all_cons, Bool.and_eq_true, Bool.not_eq_true'] at hpre
      have hp : ¬(p.status = SessionStatus.completed ∨ p.status = SessionStatus.failed) := by
        simpa [SessionStatus.isTerminal] using hpre.1
      simp only [List.cons_append, pollSessionUntilComplete, if_neg hp]
      exact ih hpre.2

/-- Concrete instance of the amended C4: with a previously selected session id
captured, one non-terminal fetch followed by a completed fetch returns the
completed session. -/
theorem C4_poll_fallback_witness :
    ([sampleRunningSession].all (fun p => !p.status.isTerminal) = true) ∧
    sampleCompletedSession.status.isTerminal = true ∧
    handleStreamFailure (some "s1")
        ([sampleRunningSession] ++ sampleCompletedSession :: []) =
      some sampleCompletedSession :=
  ⟨by decide, by decide,
    C4_poll_fallback "s1" [sampleRunningSession] sampleCompletedSession []
      (by decide) (by decide)⟩

/-- Claim C5: replaying an identical `agent_start` or `agent_complete` event
twice in succession yields the same reducer state as applying it once — the
second application is a no-op, whatever wall-clock reading it observes. -/
theorem C5_idempotent (st : ClientState) (t now1 now2 : String) (d : EventData)
    (ht : t = "agent_start" ∨ t = "agent_complete") :
    processEvent now2 (processEvent now1 st t d) t d = processEvent now1 st t d := by
  rcases ht with h | h <;> subst h
  · have hk : isKeyedType "agent_start" := Or.inl rfl
    rw [processEvent_keyed _ _ _ _ hk, processEvent_keyed _ _ _ _ hk]
    by_cases ha : d.agent_id = "" <;> by_cases hr : d.round = 0 <;>
      cases hm : mapGet (eventKey d) st.streamingMessages <;>
      simp [recordStep, ha, hr, hm, applyAt, applyAt_lookup, mapGet_mapSet, mapSet_self]
  · have hk : isKeyedType "agent_complete" := Or.inr (Or.inr rfl)
    rw [processEvent_keyed _ _ _ _ hk, processEvent_keyed _ _ _ _ hk]
    by_cases ha : d.agent_id = "" <;> by_cases hr : d.round = 0 <;>
      by_cases hc : d.content = "" <;> by_cases hts : d.timestamp = "" <;>
      cases hm : mapGet (eventKey d) st.streamingMessages <;>
      simp [recordStep, ha, hr, hc, hts, hm, applyAt, applyAt_lookup, mapGet_mapSet,
        mapSet_self]

/-- Concrete instance of C5: a duplicated `agent_start{A,1}` leaves the state
as after the first one. -/
theorem C5_idempotent_witness :
    (("agent_start" : String) = "agent_start" ∨
      ("agent_start" : String) = "agent_complete") ∧
    processEvent "t2"
        (processEvent "t1" initState "agent_start" { agent_id := "A", round := 1 })
        "agent_start" { agent_id := "A", round := 1 } =
      processEvent "t1" initState "agent_start" { agent_id := "A", round := 1 } :=
  ⟨Or.inl rfl,
    C5_idempotent initState "agent_start" "t1" "t2" { agent_id := "A", round := 1 }
      (Or.inl rfl)⟩

/-- Claim C6: for two distinct (agent_id, round) keys and per-key event
sequences, processing any interleaving of the two sequences yields the same
final record for each key as processing that key's events alone in the same
relative order — the update for one key never reads or changes another key's
record. -/
theorem C6_key_independence (st : ClientState) (k1 k2 : String) (hne : k1 ≠ k2)
    (A B L : List TimedEvent) (hI : Interleave A B L)
    (hA : A.all (isKeyedEventFor k1) = true)
    (hB : B.all (isKeyedEventFor k2) = true) :
    mapGet k1 (runEvents st L).streamingMessages =
      mapGet k1 (runEvents st A).streamingMessages ∧
    mapGet k2 (runEvents st L).streamingMessages =
      mapGet k2 (runEvents st B).streamingMessages := by
  have hA' : ∀ e ∈ A, KeyedEventFor k1 e := fun e he =>
    isKeyedEventFor_eq_true _ _ (List.all_eq_true.mp hA e he)
  have hB' : ∀ e ∈ B, KeyedEventFor k2 e := fun e he =>
    isKeyedEventFor_eq_true _ _ (List.all_eq_true.mp hB e he)
  have hLty : ∀ e ∈ L, isKeyedType e.etype := fun e he => by
    rcases hI.mem_or he with h | h
    · exact (hA' e h).1
    · exact (hB' e h).1
  constructor
  · rw [mapGet_runEvents_keyed k1 L hLty, mapGet_runEvents_keyed k1 A
      (fun e he => (hA' e he).1)]
    exact foldl_proj_interleave k1 k2 hne hI hA' hB' _
  · rw [mapGet_runEvents_keyed k2 L hLty, mapGet_runEvents_keyed k2 B
      (fun e he => (hB' e he).1)]
    exact foldl_proj_interleave k2 k1 (Ne.symm hne) hI.symm hB' hA' _

/-- Concrete instance of C6: B's `agent_start` interleaved between A's
`agent_start` and `agent_complete` changes neither key's final record. -/
theorem C6_key_independence_witness :
    (msgKey "A" 1 ≠ msgKey "B" 1) ∧
    Interleave [startEvent "t1" "A" 1, completeEvent "t3" "A" 1 "ok" none ""]
      [startEvent "t2" "B" 1]
      [startEvent "t1" "A" 1, startEvent "t2" "B" 1,
       completeEvent "t3" "A" 1 "ok" none ""] ∧
    ([startEvent "t1" "A" 1, completeEvent "t3" "A" 1 "ok" none ""].all
        (isKeyedEventFor (msgKey "A" 1)) = true) ∧
    ([startEvent "t2" "B" 1].all (isKeyedEventFor (msgKey "B" 1)) = true) ∧
    (mapGet (msgKey "A" 1)
        (runEvents initState
          [startEvent "t1" "A" 1, startEvent "t2" "B" 1,
           completeEvent "t3" "A" 1 "ok" none ""]).streamingMessages =
      mapGet (msgKey "A" 1)
        (runEvents initState
          [startEvent "t1" "A" 1, completeEvent "t3" "A" 1 "ok" none ""]).streamingMessages) ∧
    (mapGet (msgKey "B" 1)
        (runEvents initState
          [startEvent "t1" "A" 1, startEvent "t2" "B" 1,
           completeEvent "t3" "A" 1 "ok" none ""]).streamingMessages =
      mapGet (msgKey "B" 1)
        (runEvents initState [startEvent "t2" "B" 1]).streamingMessages) := by
  have hI : Interleave [startEvent "t1" "A" 1, completeEvent "t3" "A" 1 "ok" none ""]
      [startEvent "t2" "B" 1]
      [startEvent "t1" "A" 1, startEvent "t2" "B" 1,
       completeEvent "t3" "A" 1 "ok" none ""] :=
    Interleave.cons_left _ (Interleave.cons_right _ (Interleave.cons_left _ Interleave.nil))
  have h := C6_key_independence initState (msgKey "A" 1) (msgKey "B" 1) (by decide)
    [startEvent "t1" "A" 1, completeEvent "t3" "A" 1 "ok" none ""]
    [startEvent "t2" "B" 1]
    [startEvent "t1" "A" 1, startEvent "t2" "B" 1,
     completeEvent "t3" "A" 1 "ok" none ""]
    hI (by decide) (by decide)
  exact ⟨by decide, hI, by decide, by decide, h.1, h.2⟩

/-- Claim C7: the reducer tolerates out-of-order arrival for a key with no
existing record — an `agent_chunk` with no prior record creates a record
seeded with the delta (`isComplete` false), and an `agent_complete` with no
preceding start or chunk creates the record directly from the completion
payload (content, tool calls, `isComplete` true) without error. -/
theorem C7_out_of_order (st : ClientState) (a now ch c ts : String) (r : Nat)
    (tc : Option (List ToolCall))
    (hnone : mapGet (msgKey a r) st.streamingMessages = none)
    (ha : a ≠ "") (hr : r ≠ 0) (hch : ch ≠ "") :
    mapGet (msgKey a r)
        (processEvent now st "agent_chunk"
          { agent_id := a, round := r, chunk := ch }).streamingMessages =
      some { agent_id := a, agent_name := a, content := ch, round_number := r,
             timestamp := now, isComplete := false } ∧
    mapGet (msgKey a r)
        (processEvent now st "agent_complete"
          { agent_id := a, round := r, content := c, tool_calls := tc,
            timestamp := ts }).streamingMessages =
      some { agent_id := a, agent_name := a, content := c, round_number := r,
             timestamp := if ts ≠ "" then ts else now,
             tool_calls := some (tc.getD []), isComplete := true } := by
  constructor
  · rw [mapGet_processEvent_keyed _ _ _ _ (Or.inr (Or.inl rfl)),
      show eventKey ({ agent_id := a, round := r, chunk := ch } : EventData) = msgKey a r
        from rfl,
      if_pos rfl, hnone]
    simp [recordStep, ha, hr, hch]
  · rw [mapGet_processEvent_keyed _ _ _ _ (Or.inr (Or.inr rfl)),
      show eventKey ({ agent_id := a, round := r, content := c, tool_calls := tc, timestamp := ts } : EventData) = msgKey a r from rfl,
      if_pos rfl, hnone]
    simp [recordStep, ha, hr]

/-- Concrete instance of C7: a chunk and a completion each arriving with no
record for key X-2 create the expected records. -/
theorem C7_out_of_order_witness :
    (mapGet (msgKey "X" 2) initState.streamingMessages = none) ∧
    ("X" : String) ≠ "" ∧ (2 : Nat) ≠ 0 ∧ ("hi" : String) ≠ "" ∧
    (mapGet (msgKey "X" 2)
        (processEvent "t1" initState "agent_chunk"
          { agent_id := "X", round := 2, chunk := "hi" }).streamingMessages =
      some { agent_id := "X", agent_name := "X", content := "hi", round_number := 2,
             timestamp := "t1", isComplete := false }) ∧
    (mapGet (msgKey "X" 2)
        (processEvent "t1" initState "agent_complete"
          { agent_id := "X", round := 2, content := "done", tool_calls := none,
            timestamp := "t9" }).streamingMessages =
      some { agent_id := "X", agent_name := "X", content := "done", round_number := 2,
             timestamp := if ("t9" : String) ≠ "" then "t9" else "t1",
             tool_calls := some ((none : Option (List ToolCall)).getD []),
             isComplete := true }) :=
  ⟨rfl, by decide, by decide, by decide,
    (C7_out_of_order initState "X" "t1" "hi" "done" "t9" 2 none rfl
      (by decide) (by decide) (by decide)).1,
    (C7_out_of_order initState "X" "t1" "hi" "done" "t9" 2 none rfl
      (by decide) (by decide) (by decide)).2⟩

/-- Claim C8, as frozen, is false on the code: the `session_complete` handler
fetches `getSession(sessionId)` only when the loop-local `sessionId` variable
is non-empty, and that variable is set solely by a `session_created` event.
Concretely, a stream that delivers `agent_start{A,1}` and then
`session_complete{s1}` with no `session_created` marks the record complete
but performs zero fetches, not exactly one. -/
theorem C8_counterexample :
    ((runEvents initState
        [startEvent "t1" "A" 1, sessionCompleteEvent "t2" "s1"]).fetches = []) ∧
    ((mapGet (msgKey "A" 1)
        (runEvents initState
          [startEvent "t1" "A" 1, sessionCompleteEvent "t2" "s1"]).streamingMessages).map
      (fun m => m.isComplete) = some true) :=
  ⟨by decide, by decide⟩

/-- Claim C8 (amended): on a `session_complete` event (with its session id
present), the reducer marks every record currently in the map complete, and —
provided a `session_created` event was processed earlier on this connection,
so the loop-local session id is set — triggers exactly one fetch of the
authoritative persisted session; with no `session_created` seen, no fetch
occurs. -/
theorem C8_session_complete (st : ClientState) (now : String) (d : EventData)
    (k : String) (m : StreamingMessage)
    (hsid : d.session_id ≠ "") (hlocal : st.sessionId ≠ "")
    (hm : mapGet k st.streamingMessages = some m) :
    (processEvent now st "session_complete" d).fetches =
      st.fetches ++ [st.sessionId] ∧
    mapGet k (processEvent now st "session_complete" d).streamingMessages =
      some { m with isComplete := true } := by
  constructor
  · simp [processEvent, processLine, handleData, hsid, hlocal]
  · simp [processEvent, processLine, handleData, hsid, hlocal, mapGet_markAll, hm]

/-- Concrete instance of the amended C8: after `session_created{s1}` and
`agent_start{A,1}`, a `session_complete{s1}` appends exactly one fetch of s1
and marks A-1 complete. -/
theorem C8_session_complete_witness :
    ("s1" : String) ≠ "" ∧
    ((runEvents initState
        [createdEvent "t0" "s1", startEvent "t1" "A" 1]).sessionId ≠ "") ∧
    (mapGet (msgKey "A" 1)
        (runEvents initState
          [createdEvent "t0" "s1", startEvent "t1" "A" 1]).streamingMessages =
      some { agent_id := "A", agent_name := "A", content := "", round_number := 1,
             timestamp := "t1", isComplete := false }) ∧
    ((processEvent "t2"
        (runEvents initState [createdEvent "t0" "s1", startEvent "t1" "A" 1])
        "session_complete" { session_id := "s1" }).fetches =
      (runEvents initState
        [createdEvent "t0" "s1", startEvent "t1" "A" 1]).fetches ++
        [(runEvents initState
          [createdEvent "t0" "s1", startEvent "t1" "A" 1]).sessionId]) ∧
    (mapGet (msgKey "A" 1)
        (processEvent "t2"
          (runEvents initState [createdEvent "t0" "s1", startEvent "t1" "A" 1])
          "session_complete" { session_id := "s1" }).streamingMessages =
      some { agent_id := "A", agent_name := "A", content := "", round_number := 1,
             timestamp := "t1", isComplete := true }) :=
  ⟨by decide, by decide, by decide,
    (C8_session_complete _ "t2" { session_id := "s1" } (msgKey "A" 1)
      { agent_id := "A", agent_name := "A", content := "", round_number := 1,
        timestamp := "t1", isComplete := false }
      (by decide) (by decide) (by decide)).1,
    (C8_session_complete _ "t2" { session_id := "s1" } (msgKey "A" 1)
      { agent_id := "A", agent_name := "A", content := "", round_number := 1,
        timestamp := "t1", isComplete := false }
      (by decide) (by decide) (by decide)).2⟩

/-- Claim C9: a `data:` line whose payload fails to parse as JSON is logged
and skipped — it leaves the state (reducer map, session id, pending event
type, fetches) unchanged, and processing of the rest of the stream continues:
the run over any stream containing the malformed line equals the run with
that line removed. -/
theorem C9_malformed_skipped (st : ClientState) (now : String)
    (pre post : List (String × SSELine)) :
    processLine now st (SSELine.dataLine none) = st ∧
    runLines st (pre ++ (now, SSELine.dataLine none) :: post) =
      runLines st (pre ++ post) := by
  refine ⟨rfl, ?_⟩
  rw [runLines_append, runLines_append]
  rfl

/-- Claim C10: within one streaming run, processing lines never removes an
existing (agent_id, round) key from the map, and once a record's `isComplete`
flag is true no subsequently processed event resets it to false. -/
theorem C10_monotone (st : ClientState) (ls : List (String × SSELine))
    (k : String) (m : StreamingMessage)
    (hm : mapGet k st.streamingMessages = some m) :
    ∃ m', mapGet k (runLines st ls).streamingMessages = some m' ∧
      (m.isComplete = true → m'.isComplete = true) := by
  induction ls generalizing st m with
  | nil => exact ⟨m, hm, fun h => h⟩
  | cons p rest ih =>
      obtain ⟨m1, hm1, himp1⟩ := processLine_preserves p.1 st p.2 k m hm
      obtain ⟨m2, hm2, himp2⟩ := ih (processLine p.1 st p.2) m1 hm1
      exact ⟨m2, hm2, fun h => himp2 (himp1 h)⟩

/-- Concrete instance of C10: a completed record survives a subsequent chunk
and an error event with its completion flag intact. -/
theorem C10_monotone_witness :
    (mapGet (msgKey "A" 1)
        (runEvents initState
          [completeEvent "t1" "A" 1 "Done" none ""]).streamingMessages =
      some { agent_id := "A", agent_name := "A", content := "Done", round_number := 1,
             timestamp := "t1", isComplete := true, tool_calls := some [] }) ∧
    ∃ m', mapGet (msgKey "A" 1)
        (runLines (runEvents initState [completeEvent "t1" "A" 1 "Done" none ""])
          [("t2", SSELine.eventLine "agent_chunk"),
           ("t2", SSELine.dataLine (some { agent_id := "A", round := 1, chunk := "X" })),
           ("t3", SSELine.eventLine "error"),
           ("t3", SSELine.dataLine (some { error := "boom" }))]).streamingMessages =
        some m' ∧
      (({ agent_id := "A", agent_name := "A", content := "Done", round_number := 1,
          timestamp := "t1", isComplete := true,
          tool_calls := some [] } : StreamingMessage).isComplete = true →
        m'.isComplete = true) :=
  ⟨by decide,
    C10_monotone _
      [("t2", SSELine.eventLine "agent_chunk"),
       ("t2", SSELine.dataLine (some { agent_id := "A", round := 1, chunk := "X" })),
       ("t3", SSELine.eventLine "error"),
       ("t3", SSELine.dataLine (some { error := "boom" }))]
      (msgKey "A" 1)
      { agent_id := "A", agent_name := "A", content := "Done", round_number := 1,
        timestamp := "t1", isComplete := true, tool_calls := some [] }
      (by decide)⟩

end Claims

end Workshop
